import Mathlib

/-!
A shallow embedding of the DNS-Gather zone-transfer, validation and
record-consolidation pipeline (src/dns_gather/zone_transfer.py,
src/dns_gather/excel_exporter.py, src/dns_gather/main.py,
src/dns_gather/models.py), together with theorems about its behaviour.

Python strings are modelled as lists of characters (`Str`); the Python
string operations used by the code (split, rstrip, lower, replace, join,
isdigit, endswith) are reproduced on that representation.  Python's
`list.sort(key=...)` (a stable ascending sort) is modelled by a stable
insertion sort on the same key.  The external DNS transfer provider is
modelled as an outcome value: either a raw zone (list of nodes with
rdatasets) or one of the failure signals the code catches.
-/

/-- Python strings, modelled as lists of characters. -/
abbrev Str := List Char

/-- The character list of a Lean string literal. -/
def strOf (s : String) : Str := s.data

/-- Python `s.lower()` (ASCII case folding, which is all DNS names use). -/
def pyLower (s : Str) : Str := s.map Char.toLower

/-- Python `s.rstrip('.')`: remove every trailing dot. -/
def rstripDots (s : Str) : Str := (s.reverse.dropWhile (fun c => c == '.')).reverse

/-- Removing a single trailing dot, if present (used to state claims that
speak of "one trailing dot stripped"). -/
def stripOneTrailingDot (s : Str) : Str :=
  if s.getLast? = some '.' then s.dropLast else s

/-- The label before the first dot of a name. -/
def firstLabel (s : Str) : Str := s.takeWhile (fun c => !(c == '.'))

/-- Python `s.split(sep)` for a one-character separator. -/
def pySplitCh (sep : Char) : Str → List Str
  | [] => [[]]
  | c :: cs =>
    if c = sep then [] :: pySplitCh sep cs
    else (c :: (pySplitCh sep cs).headI) :: (pySplitCh sep cs).tail

/-- Python `'.'.join(parts)`. -/
def joinDots (parts : List Str) : Str := List.intercalate (strOf ".") parts

/-- Fuel-driven worker for Python `s.split(None, maxsplit)`.  Each
recursive step removes at least one character, so fuel `s.length`
always suffices; the fuel-0 fallback returns the same value the
recursive case would. -/
def pySplitWSFuel : Nat → Nat → Str → List Str
  | 0, _, s =>
    if s.dropWhile Char.isWhitespace = [] then [] else [s.dropWhile Char.isWhitespace]
  | fuel + 1, maxsplit, s =>
    let s2 := s.dropWhile Char.isWhitespace
    if s2 = [] then []
    else if maxsplit = 0 then [s2]
    else (s2.takeWhile (fun c => ! c.isWhitespace)) ::
      pySplitWSFuel fuel (maxsplit - 1) (s2.dropWhile (fun c => ! c.isWhitespace))

/-- Python `s.split(None, maxsplit)`: split on runs of whitespace,
dropping leading/trailing whitespace, at most `maxsplit` splits. -/
def pySplitWS (maxsplit : Nat) (s : Str) : List Str := pySplitWSFuel s.length maxsplit s

/-- Fuel-driven worker for Python `s.replace(pat, '')`: remove every
non-overlapping occurrence of `pat`, scanning left to right. -/
def pyReplaceAllFuel (pat : Str) : Nat → Str → Str
  | _, [] => []
  | 0, s => s
  | fuel + 1, c :: cs =>
    if pat.isPrefixOf (c :: cs) ∧ pat ≠ [] then
      pyReplaceAllFuel pat fuel ((c :: cs).drop pat.length)
    else c :: pyReplaceAllFuel pat fuel cs

/-- Python `s.replace(pat, '')` for a non-empty pattern. -/
def pyReplaceAll (pat : Str) (s : Str) : Str := pyReplaceAllFuel pat s.length s

/-- Removing one final occurrence of a suffix (used to state claims that
speak of "the zone name with that suffix stripped"). -/
def stripSuffixOnce (suffix : Str) (s : Str) : Str :=
  if suffix.isSuffixOf s then s.take (s.length - suffix.length) else s

/-- Python `s.isdigit()` (restricted to ASCII digits). -/
def pyIsDigit (s : Str) : Bool := (decide (s ≠ [])) && s.all Char.isDigit

/-- Python `int(s)` on a string of decimal digits. -/
def digitsToNat (s : Str) : Nat := s.foldl (fun a c => a * 10 + (c.toNat - 48)) 0

/-- Fuel-driven chunking of a string into 4-character pieces
(`[hex[i:i+4] for i in range(0, len(hex), 4)]`). -/
def chunkBy4 : Nat → Str → List Str
  | 0, _ => []
  | _, [] => []
  | fuel + 1, c :: cs => ((c :: cs).take 4) :: chunkBy4 fuel ((c :: cs).drop 4)

/-- `':'.join` of the 4-character chunks of a hex string. -/
def colonJoin4 (s : Str) : Str := List.intercalate (strOf ":") (chunkBy4 s.length s)

/-- `models.DNSRecord`: one resource record of a zone. -/
structure DNSRecord where
  name : Str
  record_type : Str
  ttl : Nat
  data : Str
deriving DecidableEq

/-- `models.ZoneInfo`: one DNS zone under consideration. -/
structure ZoneInfo where
  name : Str
  zone_type : Str
  serial : Nat
  transfer_status : Str
  record_count : Nat
  error_message : Str
deriving DecidableEq

/-- The `records_by_zone` dictionary: zone name keys in insertion order. -/
abbrev RBZ := List (Str × List DNSRecord)

/-- Dictionary lookup (first binding of the key). -/
def lookupRBZ : RBZ → Str → Option (List DNSRecord)
  | [], _ => none
  | p :: ps, k => if p.1 = k then some p.2 else lookupRBZ ps k

/-- Python `records_by_zone[zone.name] = records`: overwrite in place or
append a new binding. -/
def insertRBZ : RBZ → Str → List DNSRecord → RBZ
  | [], k, v => [(k, v)]
  | p :: ps, k, v => if p.1 = k then (k, v) :: ps else p :: insertRBZ ps k v

/-- Python `records_by_zone.get(zone.name, [])`. -/
def getRecords (rbz : RBZ) (k : Str) : List DNSRecord := (lookupRBZ rbz k).getD []

/-- One rdataset of a zone node, as exposed by the transfer provider. -/
structure Rdataset where
  rtype : Str
  ttl : Nat
  rdatas : List Str
deriving DecidableEq

/-- One node of a transferred zone. -/
structure ZoneNode where
  name : Str
  rdatasets : List Rdataset
deriving DecidableEq

/-- A raw transferred zone: its nodes in provider order. -/
abbrev ZoneData := List ZoneNode

/-- The per-node FQDN computed in `ZoneTransfer.parse_zone_data`. -/
def nodeFqdn (name_str zone_name : Str) : Str :=
  if name_str = strOf "@" then zone_name
  else if name_str.getLast? = some '.' then rstripDots name_str
  else rstripDots (name_str ++ strOf "." ++ zone_name)

/-- The `hostname_part` computed in `_validate_hostname_match`: the part
of the record name before the first dot, taken from the zone name for
the apex marker. -/
def code_hostname_part (record_name zone_name : Str) : Str :=
  if record_name = strOf "@" then (pySplitCh '.' zone_name).headI
  else if '.' ∈ record_name then (pySplitCh '.' record_name).headI
  else record_name

/-- The `target_hostname` computed in `_validate_hostname_match` for a
CNAME record: strip trailing dots from the data, then take the part
before the first dot. -/
def code_target_hostname (data : Str) : Str :=
  let target := rstripDots data
  if '.' ∈ target then (pySplitCh '.' target).headI else target

/-- `ZoneTransfer._validate_hostname_match`: zero or one warning for a
record, depending on its type and the hostname comparison. -/
def validate_hostname_match (record_name fqdn record_type data zone_name : Str) : List Str :=
  if record_type ∉ [strOf "A", strOf "AAAA", strOf "CNAME"] then []
  else if record_type = strOf "CNAME" then
    if pyLower (code_hostname_part record_name zone_name) ≠
        pyLower (code_target_hostname data) then
      [strOf "Zone " ++ zone_name ++ strOf ": CNAME mismatch - Record '" ++ record_name ++
        strOf "' (hostname: " ++ code_hostname_part record_name zone_name ++
        strOf ") points to '" ++ rstripDots data ++
        strOf "' (hostname: " ++ code_target_hostname data ++ strOf ")"]
    else []
  else []

/-- The records emitted for one node by `parse_zone_data`. -/
def recordsOfNode (n : ZoneNode) : List DNSRecord :=
  n.rdatasets.flatMap (fun rs => rs.rdatas.map (fun d =>
    { name := n.name, record_type := rs.rtype, ttl := rs.ttl, data := d }))

/-- The validation warnings produced for one node by `parse_zone_data`. -/
def warningsOfNode (zone_name : Str) (n : ZoneNode) : List Str :=
  n.rdatasets.flatMap (fun rs => rs.rdatas.flatMap (fun d =>
    validate_hostname_match n.name (nodeFqdn n.name zone_name) rs.rtype d zone_name))

/-- `ZoneTransfer.parse_zone_data`: the records of a raw zone, together
with the validation warnings appended while parsing. -/
def parse_zone_data (zone : ZoneData) (zone_name : Str) : List DNSRecord × List Str :=
  (zone.flatMap recordsOfNode, zone.flatMap (warningsOfNode zone_name))

/-- The behaviour of the external transfer provider for one call: a raw
zone, or one of the failure signals `perform_axfr` catches
(`dns.exception.FormError`, `dns.query.TransferError`,
`dns.exception.Timeout`, any other exception). -/
inductive XfrOutcome where
  | ok (zone : ZoneData)
  | formError (msg : Str)
  | transferError (msg : Str)
  | timeout
  | otherError (msg : Str)
deriving DecidableEq

/-- The mutable state of a `ZoneTransfer` instance: its
`validation_warnings` list. -/
structure TransferState where
  validation_warnings : List Str
deriving DecidableEq

/-- `ZoneTransfer.perform_axfr`: reset the warning list, call the
provider, and convert any provider failure into an `(empty records,
message)` result instead of raising. -/
def perform_axfr (st : TransferState) (zone_name : Str) (outcome : XfrOutcome) :
    TransferState × List DNSRecord × Str :=
  match outcome with
  | .ok zone =>
    let parsed := parse_zone_data zone zone_name
    (⟨parsed.2⟩, parsed.1, [])
  | .formError m => (⟨[]⟩, [], strOf "Zone transfer denied or malformed: " ++ m)
  | .transferError m => (⟨[]⟩, [], strOf "Zone transfer error: " ++ m)
  | .timeout => (⟨[]⟩, [], strOf "Zone transfer timeout for " ++ zone_name)
  | .otherError m => (⟨[]⟩, [], strOf "Zone transfer failed: " ++ m)

/-- The four distinguished failure causes of a transfer. -/
inductive FailCat where
  | denied
  | transport
  | timedOut
  | other
deriving DecidableEq

/-- The failure cause of a provider outcome, if any. -/
def failCatOf : XfrOutcome → Option FailCat
  | .ok _ => none
  | .formError _ => some .denied
  | .transferError _ => some .transport
  | .timeout => some .timedOut
  | .otherError _ => some .other

/-- The fixed start of the error message each failure cause produces. -/
def failMsgStart : FailCat → Str
  | .denied => strOf "Zone transfer denied or malformed: "
  | .transport => strOf "Zone transfer error: "
  | .timedOut => strOf "Zone transfer timeout for "
  | .other => strOf "Zone transfer failed: "

/-- Stable ordered insertion: place `x` before the first element `y`
with `le x y`.  Folding it over a list from the left reproduces the
stability of Python's `list.sort`. -/
def orderedInsert (le : α → α → Bool) (x : α) : List α → List α
  | [] => [x]
  | y :: ys => if le x y then x :: y :: ys else y :: orderedInsert le x ys

/-- Stable insertion sort, the model of Python `list.sort(key=...)`. -/
def insertionSort (le : α → α → Bool) : List α → List α
  | [] => []
  | x :: xs => orderedInsert le x (insertionSort le xs)

/-- Lexicographic comparison of lists over a linear order; a strict
prefix compares as smaller.  This is Python's comparison of tuples and
of strings. -/
def lexLE [LinearOrder α] : List α → List α → Bool
  | [], _ => true
  | _ :: _, [] => false
  | a :: as, b :: bs => if a = b then lexLE as bs else decide (a < b)

/-- The sort key produced by `ExcelExporter.ip_sort_key`: a tuple of
integers for dotted IPv4-looking strings, the raw string otherwise. -/
inductive IpKey where
  | nums (parts : List Nat)
  | raw (s : Str)
deriving DecidableEq

/-- `int(p) if p.isdigit() else 0`. -/
def numOrZero (p : Str) : Nat := if pyIsDigit p then digitsToNat p else 0

/-- `ExcelExporter.ip_sort_key`. -/
def ip_sort_key (s : Str) : IpKey :=
  if '.' ∈ s ∧ ':' ∉ s then IpKey.nums (((pySplitCh '.' s).take 4).map numOrZero)
  else IpKey.raw s

/-- Comparison of sort keys.  On two numeric keys and on two raw keys it
is Python's tuple comparison; comparing a numeric with a raw key raises
`TypeError` in Python, and is totalised here by putting every numeric
key first (the theorems about sortedness only assert order between rows
whose keys have the same shape). -/
def ipKeyLE : IpKey → IpKey → Bool
  | .nums a, .nums b => lexLE a b
  | .nums _, .raw _ => true
  | .raw _, .nums _ => false
  | .raw a, .raw b => lexLE a b

/-- Python's actual comparison of two sort keys, as `list.sort` performs
it: defined (`some`) on two keys of the same shape, where it is the
tuple comparison, and undefined (`none`) across shapes.  For the keys
`ip_sort_key` produces — a non-empty tuple of integers, or a 1-tuple
holding the raw string — a cross-shape comparison always compares an
integer against a string and raises `TypeError`, so a table holding
keys of both shapes cannot be sorted at all. -/
def ipKeyCmpPy : IpKey → IpKey → Option Bool
  | .nums a, .nums b => some (lexLE a b)
  | .raw a, .raw b => some (lexLE a b)
  | .nums _, .raw _ => none
  | .raw _, .nums _ => none

/-- One row of the consolidated PTR table. -/
structure PtrRow where
  ip : Str
  fqdn : Str
  zone : Str
  ttl : Nat
deriving DecidableEq

/-- One row of the consolidated CNAME table. -/
structure CnameRow where
  name : Str
  target : Str
  zone : Str
  ttl : Nat
deriving DecidableEq

/-- One row of the consolidated SRV table. -/
structure SrvRow where
  service : Str
  priority : Str
  weight : Str
  port : Str
  target : Str
  zone : Str
  ttl : Nat
deriving DecidableEq

/-- One row of the consolidated AAAA table. -/
structure AaaaRow where
  name : Str
  ipv6 : Str
  zone : Str
  ttl : Nat
deriving DecidableEq

/-- `ExcelExporter.extract_ip_from_ptr`. -/
def extract_ip_from_ptr (zone_name record_name : Str) : Str :=
  if (strOf ".in-addr.arpa").isSuffixOf zone_name then
    let zone_parts := (pySplitCh '.' (pyReplaceAll (strOf ".in-addr.arpa") zone_name)).reverse
    if record_name = strOf "@" then joinDots zone_parts
    else joinDots (zone_parts ++ pySplitCh '.' record_name)
  else if (strOf ".ip6.arpa").isSuffixOf zone_name then
    let zone_parts := (pySplitCh '.' (pyReplaceAll (strOf ".ip6.arpa") zone_name)).reverse
    let ipv6_hex :=
      if record_name = strOf "@" then zone_parts.flatten
      else ((pySplitCh '.' record_name).reverse ++ zone_parts).flatten
    colonJoin4 ipv6_hex
  else record_name ++ strOf "." ++ zone_name

/-- The PTR row built for one record in `create_ptr_records_sheet`. -/
def ptr_row_of (z : ZoneInfo) (r : DNSRecord) : PtrRow :=
  { ip := extract_ip_from_ptr z.name r.name
    fqdn := rstripDots r.data
    zone := z.name
    ttl := r.ttl }

/-- The PTR rows one zone contributes in `create_ptr_records_sheet`. -/
def zone_ptr_rows (rbz : RBZ) (z : ZoneInfo) : List PtrRow :=
  ((getRecords rbz z.name).filter (fun r => decide (r.record_type = strOf "PTR"))).map
    (ptr_row_of z)

/-- The comparison used to sort the PTR table (`key=self.ip_sort_key`). -/
def ptrLE (a b : PtrRow) : Bool := ipKeyLE (ip_sort_key a.ip) (ip_sort_key b.ip)

/-- The row contents of the consolidated PTR sheet
(`create_ptr_records_sheet` without the worksheet styling). -/
def ptr_records_table (zones : List ZoneInfo) (rbz : RBZ) : List PtrRow :=
  insertionSort ptrLE (zones.flatMap (zone_ptr_rows rbz))

/-- The CNAME row built for one record in `create_cname_records_sheet`. -/
def cname_row_of (z : ZoneInfo) (r : DNSRecord) : CnameRow :=
  { name := if r.name = strOf "@" then z.name else r.name ++ strOf "." ++ z.name
    target := rstripDots r.data
    zone := z.name
    ttl := r.ttl }

/-- The CNAME rows one zone contributes. -/
def zone_cname_rows (rbz : RBZ) (z : ZoneInfo) : List CnameRow :=
  ((getRecords rbz z.name).filter (fun r => decide (r.record_type = strOf "CNAME"))).map
    (cname_row_of z)

/-- The comparison used to sort the CNAME table (`key=name.lower()`). -/
def cnameLE (a b : CnameRow) : Bool := lexLE (pyLower a.name) (pyLower b.name)

/-- The row contents of the consolidated CNAME sheet. -/
def cname_records_table (zones : List ZoneInfo) (rbz : RBZ) : List CnameRow :=
  insertionSort cnameLE (zones.flatMap (zone_cname_rows rbz))

/-- The SRV row built for one record in `create_srv_records_sheet`. -/
def srv_row_of (z : ZoneInfo) (r : DNSRecord) : SrvRow :=
  let service := if r.name = strOf "@" then z.name else r.name ++ strOf "." ++ z.name
  let parts := pySplitWS 3 r.data
  if parts.length ≥ 4 then
    { service := service
      priority := parts.getD 0 []
      weight := parts.getD 1 []
      port := parts.getD 2 []
      target := rstripDots (parts.getD 3 [])
      zone := z.name
      ttl := r.ttl }
  else
    { service := service
      priority := []
      weight := []
      port := []
      target := rstripDots r.data
      zone := z.name
      ttl := r.ttl }

/-- The SRV rows one zone contributes. -/
def zone_srv_rows (rbz : RBZ) (z : ZoneInfo) : List SrvRow :=
  ((getRecords rbz z.name).filter (fun r => decide (r.record_type = strOf "SRV"))).map
    (srv_row_of z)

/-- The comparison used to sort the SRV table (`key=service.lower()`). -/
def srvLE (a b : SrvRow) : Bool := lexLE (pyLower a.service) (pyLower b.service)

/-- The row contents of the consolidated SRV sheet. -/
def srv_records_table (zones : List ZoneInfo) (rbz : RBZ) : List SrvRow :=
  insertionSort srvLE (zones.flatMap (zone_srv_rows rbz))

/-- The AAAA row built for one record in `create_aaaa_records_sheet`. -/
def aaaa_row_of (z : ZoneInfo) (r : DNSRecord) : AaaaRow :=
  { name := if r.name = strOf "@" then z.name else r.name ++ strOf "." ++ z.name
    ipv6 := r.data
    zone := z.name
    ttl := r.ttl }

/-- The AAAA rows one zone contributes. -/
def zone_aaaa_rows (rbz : RBZ) (z : ZoneInfo) : List AaaaRow :=
  ((getRecords rbz z.name).filter (fun r => decide (r.record_type = strOf "AAAA"))).map
    (aaaa_row_of z)

/-- The comparison used to sort the AAAA table (`key=name.lower()`). -/
def aaaaLE (a b : AaaaRow) : Bool := lexLE (pyLower a.name) (pyLower b.name)

/-- The row contents of the consolidated AAAA sheet. -/
def aaaa_records_table (zones : List ZoneInfo) (rbz : RBZ) : List AaaaRow :=
  insertionSort aaaaLE (zones.flatMap (zone_aaaa_rows rbz))

/-- The four consolidated tables, rebuilt from scratch from the inputs. -/
structure Tables where
  ptr : List PtrRow
  cname : List CnameRow
  srv : List SrvRow
  aaaa : List AaaaRow
deriving DecidableEq

/-- The consolidation pass: all four tables. -/
def consolidate (zones : List ZoneInfo) (rbz : RBZ) : Tables :=
  { ptr := ptr_records_table zones rbz
    cname := cname_records_table zones rbz
    srv := srv_records_table zones rbz
    aaaa := aaaa_records_table zones rbz }

/-- The instance attributes of `ExcelExporter`.  The instance holds only
formatting configuration; no table contents live on it. -/
structure ExcelExporter where
  output_directory : Str
  header_bg_color : Str
  header_font_color : Str
  max_column_width : Nat
deriving DecidableEq

/-- `ExcelExporter.create_workbook`, restricted to the consolidation
core: the exporter state after the call and the four tables written to
the workbook (file output and cell styling are out of scope). -/
def create_workbook (ex : ExcelExporter) (zones : List ZoneInfo) (rbz : RBZ) :
    ExcelExporter × Tables :=
  (ex, consolidate zones rbz)

/-- The per-zone transfer loop of `DNSGatherApp.run` (main.py lines
121-139), with the retriever abstracted as a map from the position of a
zone in the input to the `(records, error)` pair `perform_axfr` returns
for it. -/
def run_transfers_aux (t : Nat → List DNSRecord × Str) :
    Nat → List ZoneInfo → RBZ → List ZoneInfo × RBZ
  | _, [], rbz => ([], rbz)
  | i, z :: zs, rbz =>
    let res := t i
    let rbz2 := insertRBZ rbz z.name res.1
    let z2 :=
      if res.2 ≠ [] then
        { z with record_count := res.1.length, transfer_status := strOf "Failed",
                 error_message := res.2 }
      else
        { z with record_count := res.1.length, transfer_status := strOf "Success" }
    let rest := run_transfers_aux t (i + 1) zs rbz2
    (z2 :: rest.1, rest.2)

/-- The whole transfer loop: updated zone list (in input order) and the
final `records_by_zone` dictionary. -/
def run_transfers (t : Nat → List DNSRecord × Str) (zones : List ZoneInfo) :
    List ZoneInfo × RBZ :=
  run_transfers_aux t 0 zones []

/-- The claim's reading of the hostname part of a record name: the label
before the first dot, or the first label of the zone name for the apex
marker. -/
def spec_hostname_of (record_name zone_name : Str) : Str :=
  if record_name = strOf "@" then firstLabel zone_name else firstLabel record_name

/-- The claim's reading of a CNAME target's hostname part: the label
before the first dot, after stripping a trailing dot. -/
def spec_target_hostname_of (data : Str) : Str := firstLabel (stripOneTrailingDot data)

/-- If two lists differ at position `i`, the first is not a front
segment of anything that starts with the second. -/
theorem not_front_of_get_ne {α : Type} (p q m : List α) (i : Nat)
    (hp : i < p.length) (hq : i < q.length)
    (hne : p.get ⟨i, hp⟩ ≠ q.get ⟨i, hq⟩) : ¬ p <+: (q ++ m) := by
  rintro ⟨t, ht⟩
  have h1 : (p ++ t)[i]? = p[i]? := List.getElem?_append_left hp
  rw [ht] at h1
  rw [List.getElem?_append_left hq] at h1
  rw [List.getElem?_eq_getElem hp, List.getElem?_eq_getElem hq] at h1
  have h2 := Option.some.inj h1
  exact hne (by simpa [List.get_eq_getElem] using h2.symm)

/-- Ordered insertion produces a permutation of consing the element. -/
theorem orderedInsert_perm (le : α → α → Bool) (x : α) :
    ∀ l : List α, (orderedInsert le x l).Perm (x :: l) := by
  intro l
  induction l with
  | nil => exact List.Perm.refl _
  | cons y ys ih =>
    by_cases h : le x y = true
    · simp [orderedInsert, h]
    · simp only [orderedInsert, h, if_false, Bool.false_eq_true]
      exact (ih.cons y).trans (List.Perm.swap x y ys)

/-- Insertion sort permutes its input. -/
theorem insertionSort_perm (le : α → α → Bool) :
    ∀ l : List α, (insertionSort le l).Perm l := by
  intro l
  induction l with
  | nil => exact List.Perm.refl _
  | cons x xs ih =>
    exact (orderedInsert_perm le x (insertionSort le xs)).trans (ih.cons x)

/-- Membership is preserved by the sort. -/
theorem mem_insertionSort (le : α → α → Bool) (a : α) (l : List α) :
    a ∈ insertionSort le l ↔ a ∈ l :=
  (insertionSort_perm le l).mem_iff

/-- Ordered insertion preserves sortedness of a list, for a transitive
and total comparison. -/
theorem pairwise_orderedInsert (le : α → α → Bool)
    (htr : ∀ a b c, le a b = true → le b c = true → le a c = true)
    (hto : ∀ a b, le a b = true ∨ le b a = true) (x : α) :
    ∀ l : List α, List.Pairwise (fun a b => le a b = true) l →
      List.Pairwise (fun a b => le a b = true) (orderedInsert le x l) := by
  intro l
  induction l with
  | nil => intro _; simp [orderedInsert]
  | cons y ys ih =>
    intro h
    obtain ⟨hy, hys⟩ := List.pairwise_cons.mp h
    by_cases hxy : le x y = true
    · simp only [orderedInsert, hxy, if_true]
      refine List.pairwise_cons.mpr ⟨?_, h⟩
      intro b hb
      rcases List.mem_cons.mp hb with hb1 | hb2
      · rw [hb1]; exact hxy
      · exact htr x y b hxy (hy b hb2)
    · simp only [orderedInsert, hxy, if_false, Bool.false_eq_true]
      have hyx : le y x = true := (hto x y).resolve_left hxy
      refine List.pairwise_cons.mpr ⟨?_, ih hys⟩
      intro b hb
      have hb2 : b = x ∨ b ∈ ys := by
        simpa [List.mem_cons] using (orderedInsert_perm le x ys).mem_iff.mp hb
      rcases hb2 with rfl | hb3
      · exact hyx
      · exact hy b hb3

/-- Insertion sort sorts, for a transitive and total comparison. -/
theorem pairwise_insertionSort (le : α → α → Bool)
    (htr : ∀ a b c, le a b = true → le b c = true → le a c = true)
    (hto : ∀ a b, le a b = true ∨ le b a = true) :
    ∀ l : List α, List.Pairwise (fun a b => le a b = true) (insertionSort le l) := by
  intro l
  induction l with
  | nil => simp [insertionSort]
  | cons x xs ih => exact pairwise_orderedInsert le htr hto x _ ih

/-- Lexicographic comparison is total. -/
theorem lexLE_total [LinearOrder α] : ∀ a b : List α, lexLE a b = true ∨ lexLE b a = true := by
  intro a
  induction a with
  | nil => intro b; left; rfl
  | cons x as ih =>
    intro b
    cases b with
    | nil => right; rfl
    | cons y bs =>
      by_cases hxy : x = y
      · subst hxy
        rcases ih bs with h | h
        · left; simpa [lexLE] using h
        · right; simpa [lexLE] using h
      · rcases lt_or_gt_of_ne hxy with h | h
        · left; simp [lexLE, hxy, h]
        · right
          have hyx : ¬ y = x := fun e => hxy e.symm
          simp [lexLE, hyx, h]

/-- Lexicographic comparison is transitive. -/
theorem lexLE_trans [LinearOrder α] :
    ∀ a b c : List α, lexLE a b = true → lexLE b c = true → lexLE a c = true := by
  intro a
  induction a with
  | nil => intro b c h1 h2; rfl
  | cons x as ih =>
    intro b c h1 h2
    cases b with
    | nil => simp [lexLE] at h1
    | cons y bs =>
      cases c with
      | nil => simp [lexLE] at h2
      | cons z cs =>
        by_cases hxy : x = y
        · subst hxy
          rw [lexLE, if_pos rfl] at h1
          by_cases hxz : x = z
          · subst hxz
            rw [lexLE, if_pos rfl] at h2 ⊢
            exact ih bs cs h1 h2
          · rw [lexLE, if_neg hxz] at h2 ⊢
            exact h2
        · rw [lexLE, if_neg hxy] at h1
          have hlt1 : x < y := of_decide_eq_true h1
          by_cases hyz : y = z
          · subst hyz
            rw [lexLE, if_neg hxy]
            exact decide_eq_true hlt1
          · rw [lexLE, if_neg hyz] at h2
            have hlt2 : y < z := of_decide_eq_true h2
            have hxz : x < z := lt_trans hlt1 hlt2
            rw [lexLE, if_neg (ne_of_lt hxz)]
            exact decide_eq_true hxz

/-- The key comparison of the PTR sort is total. -/
theorem ipKeyLE_total : ∀ a b : IpKey, ipKeyLE a b = true ∨ ipKeyLE b a = true := by
  intro a b
  cases a with
  | nums as =>
    cases b with
    | nums bs => exact lexLE_total as bs
    | raw s => left; rfl
  | raw s =>
    cases b with
    | nums bs => right; rfl
    | raw s2 => exact lexLE_total s s2

/-- The key comparison of the PTR sort is transitive. -/
theorem ipKeyLE_trans :
    ∀ a b c : IpKey, ipKeyLE a b = true → ipKeyLE b c = true → ipKeyLE a c = true := by
  intro a b c h1 h2
  cases a <;> cases b <;> cases c <;>
    simp_all [ipKeyLE] <;>
    exact lexLE_trans _ _ _ h1 h2

/-- A flat map over functions that vanish on the list is empty. -/
theorem flatMap_eq_nil_of_forall {α β : Type} (l : List α) (f : α → List β)
    (h : ∀ a ∈ l, f a = []) : l.flatMap f = [] := by
  induction l with
  | nil => rfl
  | cons x xs ih =>
    rw [List.flatMap_cons, h x (List.mem_cons_self x xs), List.nil_append]
    exact ih (fun a ha => h a (List.mem_cons_of_mem x ha))

/-- Looking up the key just written returns the value written. -/
theorem lookup_insertRBZ_self : ∀ (m : RBZ) (k : Str) (v : List DNSRecord),
    lookupRBZ (insertRBZ m k v) k = some v := by
  intro m k v
  induction m with
  | nil => simp [insertRBZ, lookupRBZ]
  | cons p ps ih =>
    by_cases h : p.1 = k
    · simp [insertRBZ, h, lookupRBZ]
    · simp [insertRBZ, h, lookupRBZ, ih]

/-- Writing one key never removes another key. -/
theorem lookup_insertRBZ_isSome_of (k : Str) (v : List DNSRecord) :
    ∀ (m : RBZ) (k2 : Str), (lookupRBZ m k2).isSome = true →
      (lookupRBZ (insertRBZ m k v) k2).isSome = true := by
  intro m
  induction m with
  | nil => intro k2 h; simp [lookupRBZ] at h
  | cons p ps ih =>
    intro k2 h
    by_cases h1 : p.1 = k
    · simp only [insertRBZ, h1, if_true]
      by_cases h2 : k = k2
      · simp [lookupRBZ, h2]
      · have h3 : ¬ p.1 = k2 := by rw [h1]; exact h2
        simp only [lookupRBZ, h2, if_false]
        simpa [lookupRBZ, h3] using h
    · simp only [insertRBZ, h1, if_false]
      by_cases h2 : p.1 = k2
      · simp [lookupRBZ, h2]
      · simp only [lookupRBZ, h2, if_false] at h ⊢
        exact ih k2 h

/-- A character split never produces an empty list of pieces. -/
theorem pySplitCh_ne_nil (sep : Char) : ∀ l : Str, pySplitCh sep l ≠ [] := by
  intro l
  cases l with
  | nil => simp [pySplitCh]
  | cons c cs => by_cases h : c = sep <;> simp [pySplitCh, h]

/-- The first piece of a dot split is the label before the first dot. -/
theorem headI_pySplitCh : ∀ l : Str, (pySplitCh '.' l).headI = firstLabel l := by
  intro l
  induction l with
  | nil => rfl
  | cons c cs ih =>
    by_cases h : c = '.'
    · subst h
      simp [pySplitCh, firstLabel, List.takeWhile_cons]
    · simp [pySplitCh, firstLabel, List.takeWhile_cons, h]
      simpa [firstLabel] using ih

/-- A name without dots is its own first label. -/
theorem firstLabel_of_no_dot : ∀ l : Str, '.' ∉ l → firstLabel l = l := by
  intro l
  induction l with
  | nil => intro _; rfl
  | cons c cs ih =>
    intro h
    have h1 : ¬ c = '.' := fun e => h (by rw [e]; exact List.mem_cons_self _ _)
    have h2 : '.' ∉ cs := fun e => h (List.mem_cons_of_mem _ e)
    simp [firstLabel, List.takeWhile_cons, h1]
    simpa [firstLabel] using ih h2

/-- Appending only dots does not change the first label. -/
theorem firstLabel_append_dots : ∀ t d : Str, (∀ c ∈ d, c = '.') →
    firstLabel (t ++ d) = firstLabel t := by
  intro t
  induction t with
  | nil =>
    intro d hd
    cases d with
    | nil => rfl
    | cons c cs =>
      have h1 : c = '.' := hd c (List.mem_cons_self _ _)
      simp [firstLabel, List.takeWhile_cons, h1]
  | cons x xs ih =>
    intro d hd
    by_cases h : x = '.'
    · simp [firstLabel, List.takeWhile_cons, h]
    · simp only [List.cons_append, firstLabel, List.takeWhile_cons]
      have hb : (!(x == '.')) = true := by simp [h]
      rw [if_pos hb, if_pos hb]
      have h3 := ih d hd
      simp only [firstLabel] at h3
      rw [h3]

/-- A string is its dot-stripped core followed by its trailing dots. -/
theorem rstripDots_append_trailing (l : Str) :
    rstripDots l ++ (l.reverse.takeWhile (fun c => c == '.')).reverse = l := by
  rw [rstripDots, ← List.reverse_append, List.takeWhile_append_dropWhile, List.reverse_reverse]

/-- The trailing-dot run of a string consists of dots. -/
theorem trailing_all_dots (l : Str) :
    ∀ c ∈ (l.reverse.takeWhile (fun c => c == '.')).reverse, c = '.' := by
  intro c hc
  rw [List.mem_reverse] at hc
  simpa using List.mem_takeWhile_imp hc

/-- Stripping every trailing dot does not change the first label. -/
theorem firstLabel_rstripDots (l : Str) : firstLabel (rstripDots l) = firstLabel l := by
  conv_rhs => rw [← rstripDots_append_trailing l]
  rw [firstLabel_append_dots _ _ (trailing_all_dots l)]

/-- Stripping one trailing dot does not change the first label. -/
theorem firstLabel_stripOneTrailingDot (l : Str) :
    firstLabel (stripOneTrailingDot l) = firstLabel l := by
  rw [stripOneTrailingDot]
  by_cases h : l.getLast? = some '.'
  · rw [if_pos h]
    have hne : l ≠ [] := by
      intro e
      rw [e] at h
      simp at h
    have hlast : l.getLast hne = '.' := by
      have h2 := List.getLast?_eq_getLast l hne
      rw [h2] at h
      exact Option.some.inj h
    conv_rhs => rw [← List.dropLast_append_getLast hne, hlast]
    exact (firstLabel_append_dots _ _ (by intro c hc; simpa using hc)).symm
  · rw [if_neg h]

/-- The code's hostname extraction agrees with the specified one. -/
theorem code_hostname_part_eq_spec (rn zn : Str) :
    code_hostname_part rn zn = spec_hostname_of rn zn := by
  rw [code_hostname_part, spec_hostname_of]
  by_cases h : rn = strOf "@"
  · simp [h, headI_pySplitCh]
  · rw [if_neg h, if_neg h]
    by_cases h2 : '.' ∈ rn
    · simp [h2, headI_pySplitCh]
    · simp [h2, firstLabel_of_no_dot rn h2]

/-- The code's target-hostname extraction agrees with the specified one
(stripping all trailing dots and stripping one give the same first
label). -/
theorem code_target_hostname_eq_spec (d : Str) :
    code_target_hostname d = spec_target_hostname_of d := by
  rw [code_target_hostname, spec_target_hostname_of]
  by_cases h : '.' ∈ rstripDots d
  · simp only [h, if_true, headI_pySplitCh]
    rw [firstLabel_rstripDots, ← firstLabel_stripOneTrailingDot]
  · simp only [h, if_false]
    rw [firstLabel_stripOneTrailingDot, ← firstLabel_rstripDots,
      firstLabel_of_no_dot _ h]

/-- C4: for every record handed to the Hostname Validator, a CNAME
record yields exactly one warning when the record's hostname part (label
before the first dot; for the apex marker, the first label of the zone
name) differs case-insensitively from the target's hostname part
(computed the same way after stripping a trailing dot from the target),
and zero warnings when they agree; every record whose type is not CNAME
(in particular every A or AAAA record, and every other type) yields
zero warnings. -/
theorem cname_hostname_warning_iff (rn fq rt d zn : Str) :
    (rt = strOf "CNAME" →
      (validate_hostname_match rn fq rt d zn).length =
        (if pyLower (spec_hostname_of rn zn) = pyLower (spec_target_hostname_of d)
         then 0 else 1)) ∧
    (rt ≠ strOf "CNAME" → validate_hostname_match rn fq rt d zn = []) := by
  constructor
  · intro h
    subst h
    unfold validate_hostname_match
    rw [if_neg (by decide : ¬ (strOf "CNAME" ∉ [strOf "A", strOf "AAAA", strOf "CNAME"]))]
    rw [if_pos rfl, code_hostname_part_eq_spec, code_target_hostname_eq_spec]
    by_cases hc : pyLower (spec_hostname_of rn zn) = pyLower (spec_target_hostname_of d)
    · rw [if_neg (fun hn => hn hc), if_pos hc]
      rfl
    · rw [if_pos hc, if_neg hc]
      rfl
  · intro h
    unfold validate_hostname_match
    by_cases h2 : rt ∉ [strOf "A", strOf "AAAA", strOf "CNAME"]
    · rw [if_pos h2]
    · rw [if_neg h2, if_neg h]

/-- Witness for C4: a mismatching CNAME produces one warning, a
case-insensitively matching one produces none, and an A record produces
none. -/
theorem cname_hostname_warning_iff_witness :
    (validate_hostname_match (strOf "www") (strOf "www.example.com") (strOf "CNAME")
      (strOf "app.example.com.") (strOf "example.com")).length = 1 ∧
    (validate_hostname_match (strOf "www") (strOf "www.example.com") (strOf "CNAME")
      (strOf "WWW.other.org.") (strOf "example.com")).length = 0 ∧
    validate_hostname_match (strOf "www") (strOf "www.example.com") (strOf "A")
      (strOf "192.168.1.1") (strOf "example.com") = [] := by
  refine ⟨?_, ?_, ?_⟩
  · have h := (cname_hostname_warning_iff (strOf "www") (strOf "www.example.com")
      (strOf "CNAME") (strOf "app.example.com.") (strOf "example.com")).1 rfl
    rw [h]
    decide
  · have h := (cname_hostname_warning_iff (strOf "www") (strOf "www.example.com")
      (strOf "CNAME") (strOf "WWW.other.org.") (strOf "example.com")).1 rfl
    rw [h]
    decide
  · exact (cname_hostname_warning_iff (strOf "www") (strOf "www.example.com")
      (strOf "A") (strOf "192.168.1.1") (strOf "example.com")).2 (by decide)

/-- The message starts of distinct failure causes never collide: no
cause's start begins a message produced by a different cause. -/
theorem failMsgStart_not_front (c c2 : FailCat) (hne : c2 ≠ c) (m : Str) :
    ¬ failMsgStart c2 <+: (failMsgStart c ++ m) := by
  cases c <;> cases c2 <;>
    first
      | exact absurd rfl hne
      | exact not_front_of_get_ne _ _ m 14 (by decide) (by decide) (by decide)

/-- C1: `perform_axfr` never raises (it is a total function of the
provider outcome); on every provider failure it returns an empty record
list and a non-empty error message, and the message begins with the
fixed start of the failure's own cause and with no other cause's start,
so callers can branch on the failure category from the message alone. -/
theorem perform_axfr_failure_contract (st : TransferState) (zn : Str) (o : XfrOutcome)
    (c : FailCat) (h : failCatOf o = some c) :
    (perform_axfr st zn o).2.1 = [] ∧
    (perform_axfr st zn o).2.2 ≠ [] ∧
    failMsgStart c <+: (perform_axfr st zn o).2.2 ∧
    (∀ c2 : FailCat, c2 ≠ c → ¬ failMsgStart c2 <+: (perform_axfr st zn o).2.2) := by
  cases o with
  | ok zone => simp [failCatOf] at h
  | formError m =>
    have hc : FailCat.denied = c := by simpa [failCatOf] using h
    subst hc
    refine ⟨rfl, ?_, ⟨m, rfl⟩, fun c2 hne => failMsgStart_not_front FailCat.denied c2 hne m⟩
    intro hcontra
    rw [show (perform_axfr st zn (XfrOutcome.formError m)).2.2 =
        strOf "Zone transfer denied or malformed: " ++ m from rfl,
      List.append_eq_nil] at hcontra
    exact absurd hcontra.1 (by decide)
  | transferError m =>
    have hc : FailCat.transport = c := by simpa [failCatOf] using h
    subst hc
    refine ⟨rfl, ?_, ⟨m, rfl⟩, fun c2 hne => failMsgStart_not_front FailCat.transport c2 hne m⟩
    intro hcontra
    rw [show (perform_axfr st zn (XfrOutcome.transferError m)).2.2 =
        strOf "Zone transfer error: " ++ m from rfl,
      List.append_eq_nil] at hcontra
    exact absurd hcontra.1 (by decide)
  | timeout =>
    have hc : FailCat.timedOut = c := by simpa [failCatOf] using h
    subst hc
    refine ⟨rfl, ?_, ⟨zn, rfl⟩, fun c2 hne => failMsgStart_not_front FailCat.timedOut c2 hne zn⟩
    intro hcontra
    rw [show (perform_axfr st zn XfrOutcome.timeout).2.2 =
        strOf "Zone transfer timeout for " ++ zn from rfl,
      List.append_eq_nil] at hcontra
    exact absurd hcontra.1 (by decide)
  | otherError m =>
    have hc : FailCat.other = c := by simpa [failCatOf] using h
    subst hc
    refine ⟨rfl, ?_, ⟨m, rfl⟩, fun c2 hne => failMsgStart_not_front FailCat.other c2 hne m⟩
    intro hcontra
    rw [show (perform_axfr st zn (XfrOutcome.otherError m)).2.2 =
        strOf "Zone transfer failed: " ++ m from rfl,
      List.append_eq_nil] at hcontra
    exact absurd hcontra.1 (by decide)

/-- Witness for C1: a denied transfer of `example.com`, attempted on a
state that still held an old warning. -/
theorem perform_axfr_failure_contract_witness :
    failCatOf (XfrOutcome.formError (strOf "refused")) = some FailCat.denied ∧
    ((perform_axfr ⟨[strOf "old warning"]⟩ (strOf "example.com")
        (XfrOutcome.formError (strOf "refused"))).2.1 = [] ∧
      (perform_axfr ⟨[strOf "old warning"]⟩ (strOf "example.com")
        (XfrOutcome.formError (strOf "refused"))).2.2 ≠ [] ∧
      failMsgStart FailCat.denied <+:
        (perform_axfr ⟨[strOf "old warning"]⟩ (strOf "example.com")
          (XfrOutcome.formError (strOf "refused"))).2.2 ∧
      (∀ c2 : FailCat, c2 ≠ FailCat.denied →
        ¬ failMsgStart c2 <+:
          (perform_axfr ⟨[strOf "old warning"]⟩ (strOf "example.com")
            (XfrOutcome.formError (strOf "refused"))).2.2)) :=
  ⟨rfl, perform_axfr_failure_contract ⟨[strOf "old warning"]⟩ (strOf "example.com")
    (XfrOutcome.formError (strOf "refused")) FailCat.denied rfl⟩

/-- C9: the warning accumulator is reset at the start of every
`perform_axfr` call, so the warnings visible after a call do not depend
on any earlier state: they are exactly the warnings of this call's
parse; and on a successful provider outcome the returned error string
is empty no matter how many validation warnings the parse produced. -/
theorem warnings_reset_per_call :
    (∀ (st st2 : TransferState) (zn : Str) (o : XfrOutcome),
      (perform_axfr st zn o).1.validation_warnings =
        (perform_axfr st2 zn o).1.validation_warnings) ∧
    (∀ (st : TransferState) (zn : Str) (zone : ZoneData),
      (perform_axfr st zn (XfrOutcome.ok zone)).1.validation_warnings =
        (parse_zone_data zone zn).2) ∧
    (∀ (st : TransferState) (zn : Str) (zone : ZoneData),
      (perform_axfr st zn (XfrOutcome.ok zone)).2.2 = []) := by
  refine ⟨?_, ?_, ?_⟩
  · intro st st2 zn o
    cases o <;> rfl
  · intro st zn zone
    rfl
  · intro st zn zone
    rfl

/-- The transfer loop, started at any index and accumulator: output
length, per-position zone updates, key preservation, and presence of a
binding for every processed zone. -/
theorem run_transfers_aux_spec (t : Nat → List DNSRecord × Str) :
    ∀ (zones : List ZoneInfo) (i : Nat) (rbz0 : RBZ),
      (run_transfers_aux t i zones rbz0).1.length = zones.length ∧
      (∀ j (hj : j < zones.length),
        ∃ z2, ((run_transfers_aux t i zones rbz0).1)[j]? = some z2 ∧
          z2.name = zones[j].name ∧
          z2.zone_type = zones[j].zone_type ∧
          z2.serial = zones[j].serial ∧
          z2.record_count = (t (i + j)).1.length ∧
          z2.transfer_status =
            (if (t (i + j)).2 ≠ [] then strOf "Failed" else strOf "Success") ∧
          z2.error_message =
            (if (t (i + j)).2 ≠ [] then (t (i + j)).2 else zones[j].error_message)) ∧
      (∀ k : Str, (lookupRBZ rbz0 k).isSome = true →
        (lookupRBZ (run_transfers_aux t i zones rbz0).2 k).isSome = true) ∧
      (∀ z ∈ zones, (lookupRBZ (run_transfers_aux t i zones rbz0).2 z.name).isSome = true) := by
  intro zones
  induction zones with
  | nil =>
    intro i rbz0
    refine ⟨rfl, ?_, ?_, ?_⟩
    · intro j hj
      exact absurd hj (by simp)
    · intro k h
      exact h
    · intro z hz
      cases hz
  | cons z zs ih =>
    intro i rbz0
    obtain ⟨ihlen, ihget, ihmono, ihmem⟩ := ih (i + 1) (insertRBZ rbz0 z.name (t i).1)
    refine ⟨?_, ?_, ?_, ?_⟩
    · simp only [run_transfers_aux, List.length_cons]
      rw [ihlen]
    · intro j hj
      cases j with
      | zero =>
        by_cases he : (t i).2 ≠ []
        · refine ⟨{ z with
              record_count := (t i).1.length
              transfer_status := strOf "Failed"
              error_message := (t i).2 }, ?_,
              rfl, rfl, rfl, ?_, ?_, ?_⟩
          · simp only [run_transfers_aux, List.getElem?_cons_zero]
            rw [if_pos he]
          · simp [Nat.add_zero]
          · simp [Nat.add_zero, he]
          · simp [Nat.add_zero, he]
        · refine ⟨{ z with
              record_count := (t i).1.length
              transfer_status := strOf "Success" }, ?_, rfl, rfl, rfl, ?_, ?_, ?_⟩
          · simp only [run_transfers_aux, List.getElem?_cons_zero]
            rw [if_neg he]
          · simp [Nat.add_zero]
          · simp [Nat.add_zero, he]
          · simp [Nat.add_zero, he]
      | succ j =>
        have hj2 : j < zs.length := by simpa using hj
        obtain ⟨z2, hz2, hname, htype, hserial, hcount, hstat, herr⟩ := ihget j hj2
        have hidx : i + 1 + j = i + (j + 1) := by omega
        rw [hidx] at hcount hstat herr
        refine ⟨z2, ?_, ?_, ?_, ?_, hcount, hstat, ?_⟩
        · simp only [run_transfers_aux, List.getElem?_cons_succ]
          exact hz2
        · simpa using hname
        · simpa using htype
        · simpa using hserial
        · simpa using herr
    · intro k h
      simp only [run_transfers_aux]
      exact ihmono k (lookup_insertRBZ_isSome_of z.name (t i).1 rbz0 k h)
    · intro z3 hz3
      simp only [run_transfers_aux]
      rcases List.mem_cons.mp hz3 with rfl | h3
      · refine ihmono z3.name ?_
        rw [lookup_insertRBZ_self]
        rfl
      · exact ihmem z3 h3

/-- C5 (amended): the Driver processes zones in input order, producing
one updated entry per input zone in the same position; each entry's
`transfer_status` is `Failed` exactly when the returned error string is
non-empty (`Success` otherwise), its `record_count` is the length of the
returned record list, its `error_message` is the returned error string
on failure and is left unchanged on success, its identifying fields are
untouched, and the final `records_by_zone` mapping holds an entry for
every attempted zone; no failure aborts the batch. -/
theorem driver_batch_contract (t : Nat → List DNSRecord × Str) (zones : List ZoneInfo) :
    (run_transfers t zones).1.length = zones.length ∧
    (∀ j (hj : j < zones.length),
      ∃ z2, ((run_transfers t zones).1)[j]? = some z2 ∧
        z2.name = zones[j].name ∧
        z2.zone_type = zones[j].zone_type ∧
        z2.serial = zones[j].serial ∧
        z2.record_count = (t j).1.length ∧
        z2.transfer_status = (if (t j).2 ≠ [] then strOf "Failed" else strOf "Success") ∧
        z2.error_message = (if (t j).2 ≠ [] then (t j).2 else zones[j].error_message)) ∧
    (∀ z ∈ zones, (lookupRBZ (run_transfers t zones).2 z.name).isSome = true) := by
  obtain ⟨h1, h2, h3, h4⟩ := run_transfers_aux_spec t zones 0 []
  refine ⟨h1, ?_, h4⟩
  intro j hj
  obtain ⟨z2, hz2, hname, htype, hserial, hcount, hstat, herr⟩ := h2 j hj
  rw [Nat.zero_add] at hcount hstat herr
  exact ⟨z2, hz2, hname, htype, hserial, hcount, hstat, herr⟩

/-- Witness for C5: a two-zone batch whose first transfer fails and
whose second succeeds still yields two correctly statused entries, in
order, and bindings for both zones. -/
theorem driver_batch_contract_witness :
    ((run_transfers (fun n => if n = 0 then ([], strOf "refused") else ([], []))
        [⟨strOf "a.com", strOf "Primary", 1, strOf "Pending", 0, []⟩,
         ⟨strOf "b.com", strOf "Primary", 2, strOf "Pending", 0, []⟩]).1.length = 2) ∧
    (∃ z2, ((run_transfers (fun n => if n = 0 then ([], strOf "refused") else ([], []))
        [⟨strOf "a.com", strOf "Primary", 1, strOf "Pending", 0, []⟩,
         ⟨strOf "b.com", strOf "Primary", 2, strOf "Pending", 0, []⟩]).1)[0]? = some z2 ∧
      z2.name = strOf "a.com" ∧ z2.transfer_status = strOf "Failed" ∧
      z2.error_message = strOf "refused") ∧
    (∃ z2, ((run_transfers (fun n => if n = 0 then ([], strOf "refused") else ([], []))
        [⟨strOf "a.com", strOf "Primary", 1, strOf "Pending", 0, []⟩,
         ⟨strOf "b.com", strOf "Primary", 2, strOf "Pending", 0, []⟩]).1)[1]? = some z2 ∧
      z2.name = strOf "b.com" ∧ z2.transfer_status = strOf "Success" ∧
      z2.error_message = []) := by
  obtain ⟨h1, h2, h3⟩ := driver_batch_contract
    (fun n => if n = 0 then ([], strOf "refused") else ([], []))
    [⟨strOf "a.com", strOf "Primary", 1, strOf "Pending", 0, []⟩,
     ⟨strOf "b.com", strOf "Primary", 2, strOf "Pending", 0, []⟩]
  refine ⟨h1, ?_, ?_⟩
  · obtain ⟨z2, hz2, hname, -, -, -, hstat, herr⟩ := h2 0 (by decide)
    refine ⟨z2, hz2, ?_, ?_, ?_⟩
    · rw [hname]
      decide
    · rw [hstat]
      decide
    · rw [herr]
      decide
  · obtain ⟨z2, hz2, hname, -, -, -, hstat, herr⟩ := h2 1 (by decide)
    refine ⟨z2, hz2, ?_, ?_, ?_⟩
    · rw [hname]
      decide
    · rw [hstat]
      decide
    · rw [herr]
      decide

/-- Counterexample for C5 as stated: a zone that enters the loop with a
non-empty `error_message` and whose transfer succeeds keeps its old
message, so on success `error_message` is not set to the (empty)
returned error string. -/
theorem driver_error_message_counterexample :
    ((run_transfers (fun _ => ([], []))
        [⟨strOf "a.com", strOf "Primary", 0, strOf "Pending", 0, strOf "stale"⟩]).1.map
        (fun z => z.transfer_status) = [strOf "Success"]) ∧
    ((run_transfers (fun _ => ([], []))
        [⟨strOf "a.com", strOf "Primary", 0, strOf "Pending", 0, strOf "stale"⟩]).1.map
        (fun z => z.error_message) = [strOf "stale"]) ∧
    strOf "stale" ≠ ([] : Str) := by
  exact ⟨by decide, by decide, by decide⟩

/-- C2 (amended): for every PTR record of a zone whose name ends with
`.in-addr.arpa`, the PTR table holds a row whose `ip` is built from the
zone name with every occurrence of the substring `.in-addr.arpa`
removed (the code uses `str.replace`, not a suffix strip), split on
dots and the labels reversed; for the apex marker the IP is those
reversed labels joined by dots, otherwise the record name's labels
follow them in the order given.  The row's `fqdn` is the record data
with trailing dots stripped, and it carries the zone name and TTL. -/
theorem ptr_ip_reconstruction (zones : List ZoneInfo) (rbz : RBZ) (z : ZoneInfo)
    (r : DNSRecord) (hz : z ∈ zones) (hr : r ∈ getRecords rbz z.name)
    (ht : r.record_type = strOf "PTR")
    (hs : (strOf ".in-addr.arpa").isSuffixOf z.name = true) :
    ∃ row ∈ ptr_records_table zones rbz,
      row.ip = (if r.name = strOf "@" then
          joinDots ((pySplitCh '.' (pyReplaceAll (strOf ".in-addr.arpa") z.name)).reverse)
        else
          joinDots ((pySplitCh '.' (pyReplaceAll (strOf ".in-addr.arpa") z.name)).reverse ++
            pySplitCh '.' r.name)) ∧
      row.fqdn = rstripDots r.data ∧ row.zone = z.name ∧ row.ttl = r.ttl := by
  refine ⟨ptr_row_of z r, ?_, ?_, rfl, rfl, rfl⟩
  · rw [ptr_records_table, mem_insertionSort]
    exact List.mem_flatMap.mpr ⟨z, hz, List.mem_map_of_mem _
      (List.mem_filter.mpr ⟨hr, by rw [ht]; exact decide_eq_true rfl⟩)⟩
  · show extract_ip_from_ptr z.name r.name = _
    unfold extract_ip_from_ptr
    rw [if_pos hs]

/-- Witness for C2: zone `1.168.192.in-addr.arpa` with record `10`
yields IP `192.168.1.10`, and with the apex marker yields `192.168.1`. -/
theorem ptr_ip_reconstruction_witness :
    (∃ row ∈ ptr_records_table
        [⟨strOf "1.168.192.in-addr.arpa", strOf "Primary", 0, strOf "Success", 0, []⟩]
        [(strOf "1.168.192.in-addr.arpa",
          [⟨strOf "10", strOf "PTR", 300, strOf "host.example.com."⟩])],
      row.ip = strOf "192.168.1.10" ∧ row.fqdn = strOf "host.example.com") ∧
    (∃ row ∈ ptr_records_table
        [⟨strOf "1.168.192.in-addr.arpa", strOf "Primary", 0, strOf "Success", 0, []⟩]
        [(strOf "1.168.192.in-addr.arpa",
          [⟨strOf "@", strOf "PTR", 300, strOf "apex.example.com."⟩])],
      row.ip = strOf "192.168.1") := by
  constructor
  · obtain ⟨row, hmem, hip, hfq, -, -⟩ := ptr_ip_reconstruction
      [⟨strOf "1.168.192.in-addr.arpa", strOf "Primary", 0, strOf "Success", 0, []⟩]
      [(strOf "1.168.192.in-addr.arpa",
        [⟨strOf "10", strOf "PTR", 300, strOf "host.example.com."⟩])]
      ⟨strOf "1.168.192.in-addr.arpa", strOf "Primary", 0, strOf "Success", 0, []⟩
      ⟨strOf "10", strOf "PTR", 300, strOf "host.example.com."⟩
      (by decide) (by decide) (by decide) (by decide)
    refine ⟨row, hmem, ?_, ?_⟩
    · rw [hip]
      decide
    · rw [hfq]
      decide
  · obtain ⟨row, hmem, hip, -, -, -⟩ := ptr_ip_reconstruction
      [⟨strOf "1.168.192.in-addr.arpa", strOf "Primary", 0, strOf "Success", 0, []⟩]
      [(strOf "1.168.192.in-addr.arpa",
        [⟨strOf "@", strOf "PTR", 300, strOf "apex.example.com."⟩])]
      ⟨strOf "1.168.192.in-addr.arpa", strOf "Primary", 0, strOf "Success", 0, []⟩
      ⟨strOf "@", strOf "PTR", 300, strOf "apex.example.com."⟩
      (by decide) (by decide) (by decide) (by decide)
    refine ⟨row, hmem, ?_⟩
    rw [hip]
    decide

/-- Counterexample for C2 as stated: the code removes every occurrence
of `.in-addr.arpa` (str.replace), not just the suffix, so for the zone
`1.in-addr.arpa.in-addr.arpa` the produced IP differs from the one a
single suffix strip would give. -/
theorem extract_ip_replace_all_counterexample :
    ((ptr_records_table
        [⟨strOf "1.in-addr.arpa.in-addr.arpa", strOf "Primary", 0, strOf "Success", 0, []⟩]
        [(strOf "1.in-addr.arpa.in-addr.arpa",
          [⟨strOf "10", strOf "PTR", 300, strOf "host.example.com."⟩])]).map
        (fun row => row.ip) = [strOf "1.10"]) ∧
    joinDots ((pySplitCh '.'
        (stripSuffixOnce (strOf ".in-addr.arpa") (strOf "1.in-addr.arpa.in-addr.arpa"))).reverse ++
      pySplitCh '.' (strOf "10")) = strOf "arpa.in-addr.1.10" ∧
    strOf "1.10" ≠ strOf "arpa.in-addr.1.10" := by
  exact ⟨by decide, by decide, by decide⟩

/-- C3 (amended): every SRV record yields exactly one row; its data is
split on whitespace into at most 4 fields; with 4 fields the first
three are priority, weight and port and the target is the remainder
with all trailing dots stripped (`rstrip('.')`); with fewer fields the
three numeric columns are empty and the target is the whole raw data
with all trailing dots stripped — the record is never dropped. -/
theorem srv_row_fields (zones : List ZoneInfo) (rbz : RBZ) (z : ZoneInfo) (r : DNSRecord)
    (hz : z ∈ zones) (hr : r ∈ getRecords rbz z.name) (ht : r.record_type = strOf "SRV") :
    ∃ row ∈ srv_records_table zones rbz,
      row.service = (if r.name = strOf "@" then z.name else r.name ++ strOf "." ++ z.name) ∧
      ((pySplitWS 3 r.data).length ≥ 4 →
        row.priority = (pySplitWS 3 r.data).getD 0 [] ∧
        row.weight = (pySplitWS 3 r.data).getD 1 [] ∧
        row.port = (pySplitWS 3 r.data).getD 2 [] ∧
        row.target = rstripDots ((pySplitWS 3 r.data).getD 3 [])) ∧
      (¬ (pySplitWS 3 r.data).length ≥ 4 →
        row.priority = [] ∧ row.weight = [] ∧ row.port = [] ∧
        row.target = rstripDots r.data) ∧
      row.zone = z.name ∧ row.ttl = r.ttl := by
  refine ⟨srv_row_of z r, ?_, ?_, ?_, ?_, ?_, ?_⟩
  · rw [srv_records_table, mem_insertionSort]
    exact List.mem_flatMap.mpr ⟨z, hz, List.mem_map_of_mem _
      (List.mem_filter.mpr ⟨hr, by rw [ht]; exact decide_eq_true rfl⟩)⟩
  · by_cases h4 : (pySplitWS 3 r.data).length ≥ 4 <;> simp [srv_row_of, h4]
  · intro h4
    simp [srv_row_of, h4]
  · intro h4
    simp [srv_row_of, h4]
  · by_cases h4 : (pySplitWS 3 r.data).length ≥ 4 <;> simp [srv_row_of, h4]
  · by_cases h4 : (pySplitWS 3 r.data).length ≥ 4 <;> simp [srv_row_of, h4]

/-- Witness for C3: data `10 60 5060 sipserver.example.com.` yields
priority 10, weight 60, port 5060, target `sipserver.example.com`. -/
theorem srv_row_fields_witness :
    ∃ row ∈ srv_records_table
        [⟨strOf "example.com", strOf "Primary", 0, strOf "Success", 0, []⟩]
        [(strOf "example.com",
          [⟨strOf "_sip._tcp", strOf "SRV", 3600,
            strOf "10 60 5060 sipserver.example.com."⟩])],
      row.service = strOf "_sip._tcp.example.com" ∧
      row.priority = strOf "10" ∧ row.weight = strOf "60" ∧
      row.port = strOf "5060" ∧ row.target = strOf "sipserver.example.com" := by
  obtain ⟨row, hmem, hserv, h4imp, -, -, -⟩ := srv_row_fields
    [⟨strOf "example.com", strOf "Primary", 0, strOf "Success", 0, []⟩]
    [(strOf "example.com",
      [⟨strOf "_sip._tcp", strOf "SRV", 3600, strOf "10 60 5060 sipserver.example.com."⟩])]
    ⟨strOf "example.com", strOf "Primary", 0, strOf "Success", 0, []⟩
    ⟨strOf "_sip._tcp", strOf "SRV", 3600, strOf "10 60 5060 sipserver.example.com."⟩
    (by decide) (by decide) (by decide)
  obtain ⟨hp, hw, hpo, htg⟩ := h4imp (by decide)
  refine ⟨row, hmem, ?_, ?_, ?_, ?_, ?_⟩
  · rw [hserv]
    decide
  · rw [hp]
    decide
  · rw [hw]
    decide
  · rw [hpo]
    decide
  · rw [htg]
    decide

/-- Counterexample for C3 as stated: the code strips all trailing dots
from the SRV target (`rstrip('.')`), not one, so for data whose fourth
field ends in two dots the produced target differs from the
one-dot-stripped remainder. -/
theorem srv_target_rstrip_counterexample :
    ((srv_records_table
        [⟨strOf "example.com", strOf "Primary", 0, strOf "Success", 0, []⟩]
        [(strOf "example.com",
          [⟨strOf "x", strOf "SRV", 60, strOf "1 2 3 t.."⟩])]).map
        (fun row => row.target) = [strOf "t"]) ∧
    stripOneTrailingDot ((pySplitWS 3 (strOf "1 2 3 t..")).getD 3 []) = strOf "t." ∧
    strOf "t" ≠ strOf "t." := by
  exact ⟨by decide, by decide, by decide⟩

/-- C7 (amended): every CNAME record yields a row whose `name` is the
zone name for the apex marker and otherwise `<recordName>.<zoneName>`
verbatim (the sheet builder performs no trailing-dot removal, unlike
the parse step), whose `target` is the record data with all trailing
dots stripped, carrying the zone name and TTL; and the table is sorted
ascending by `name` under case-insensitive comparison. -/
theorem cname_table_contract :
    (∀ (zones : List ZoneInfo) (rbz : RBZ) (z : ZoneInfo) (r : DNSRecord),
      z ∈ zones → r ∈ getRecords rbz z.name → r.record_type = strOf "CNAME" →
      ∃ row ∈ cname_records_table zones rbz,
        row.name = (if r.name = strOf "@" then z.name else r.name ++ strOf "." ++ z.name) ∧
        row.target = rstripDots r.data ∧ row.zone = z.name ∧ row.ttl = r.ttl) ∧
    (∀ (zones : List ZoneInfo) (rbz : RBZ),
      List.Pairwise (fun a b => lexLE (pyLower a.name) (pyLower b.name) = true)
        (cname_records_table zones rbz)) := by
  constructor
  · intro zones rbz z r hz hr ht
    refine ⟨cname_row_of z r, ?_, rfl, rfl, rfl, rfl⟩
    rw [cname_records_table, mem_insertionSort]
    exact List.mem_flatMap.mpr ⟨z, hz, List.mem_map_of_mem _
      (List.mem_filter.mpr ⟨hr, by rw [ht]; exact decide_eq_true rfl⟩)⟩
  · intro zones rbz
    exact pairwise_insertionSort cnameLE
      (fun a b c h1 h2 => lexLE_trans _ _ _ h1 h2)
      (fun a b => lexLE_total _ _) _

/-- Witness for C7: a CNAME row with its apex-expanded name, stripped
target, and a sorted two-row table. -/
theorem cname_table_contract_witness :
    (∃ row ∈ cname_records_table
        [⟨strOf "example.com", strOf "Primary", 0, strOf "Success", 0, []⟩]
        [(strOf "example.com",
          [⟨strOf "www", strOf "CNAME", 300, strOf "web.example.com."⟩])],
      row.name = strOf "www.example.com" ∧ row.target = strOf "web.example.com") ∧
    ((cname_records_table
        [⟨strOf "example.com", strOf "Primary", 0, strOf "Success", 0, []⟩]
        [(strOf "example.com",
          [⟨strOf "www", strOf "CNAME", 300, strOf "web.example.com."⟩,
           ⟨strOf "Alpha", strOf "CNAME", 300, strOf "alpha.example.com."⟩])]).map
        (fun row => row.name) = [strOf "Alpha.example.com", strOf "www.example.com"]) := by
  constructor
  · obtain ⟨row, hmem, hname, htgt, -, -⟩ := cname_table_contract.1
      [⟨strOf "example.com", strOf "Primary", 0, strOf "Success", 0, []⟩]
      [(strOf "example.com",
        [⟨strOf "www", strOf "CNAME", 300, strOf "web.example.com."⟩])]
      ⟨strOf "example.com", strOf "Primary", 0, strOf "Success", 0, []⟩
      ⟨strOf "www", strOf "CNAME", 300, strOf "web.example.com."⟩
      (by decide) (by decide) (by decide)
    refine ⟨row, hmem, ?_, ?_⟩
    · rw [hname]
      decide
    · rw [htgt]
      decide
  · decide

/-- Counterexample for C7 as stated: with a trailing-dot zone name the
sheet's `name` keeps the dot the parse step would strip, and a target
ending in two dots loses both, not one. -/
theorem cname_row_name_counterexample :
    ((cname_records_table
        [⟨strOf "example.com.", strOf "Primary", 0, strOf "Success", 0, []⟩]
        [(strOf "example.com.",
          [⟨strOf "www", strOf "CNAME", 300, strOf "t.example.com.."⟩])]).map
        (fun row => row.name) = [strOf "www.example.com."]) ∧
    rstripDots (strOf "www" ++ strOf "." ++ strOf "example.com.") = strOf "www.example.com" ∧
    strOf "www.example.com." ≠ strOf "www.example.com" ∧
    ((cname_records_table
        [⟨strOf "example.com.", strOf "Primary", 0, strOf "Success", 0, []⟩]
        [(strOf "example.com.",
          [⟨strOf "www", strOf "CNAME", 300, strOf "t.example.com.."⟩])]).map
        (fun row => row.target) = [strOf "t.example.com"]) ∧
    stripOneTrailingDot (strOf "t.example.com..") = strOf "t.example.com." ∧
    strOf "t.example.com" ≠ strOf "t.example.com." := by
  exact ⟨by decide, by decide, by decide, by decide, by decide, by decide⟩

/-- C6 (amended): the sort key of the PTR table is dual-mode: for a
string with a dot and no colon it is the list of up to 4 dot-separated
components parsed as integers (non-numeric components as 0), compared
as a tuple of integers; for every other string it is the raw string,
compared lexicographically.  Whenever all the table's addresses fall in
one mode — all dotted (IPv4 reverse zones) or all not (e.g. the
colon-formatted output of IPv6 reverse zones) — the rows are in
ascending order under Python's own comparison of those keys; comparing
a key of each shape is undefined (Python raises `TypeError`), so a
table mixing the two modes is never sorted — the sort call raises
instead.  The claim's concrete four-address example sorts as given. -/
theorem ptr_sort_key_contract :
    (∀ s : Str, ('.' ∈ s ∧ ':' ∉ s) →
      ip_sort_key s = IpKey.nums (((pySplitCh '.' s).take 4).map numOrZero)) ∧
    (∀ s : Str, ¬ ('.' ∈ s ∧ ':' ∉ s) → ip_sort_key s = IpKey.raw s) ∧
    (∀ (zones : List ZoneInfo) (rbz : RBZ),
      (∀ row ∈ ptr_records_table zones rbz, '.' ∈ row.ip ∧ ':' ∉ row.ip) →
      List.Pairwise (fun a b => ipKeyCmpPy (ip_sort_key a.ip) (ip_sort_key b.ip) = some true)
        (ptr_records_table zones rbz)) ∧
    (∀ (zones : List ZoneInfo) (rbz : RBZ),
      (∀ row ∈ ptr_records_table zones rbz, ¬ ('.' ∈ row.ip ∧ ':' ∉ row.ip)) →
      List.Pairwise (fun a b => ipKeyCmpPy (ip_sort_key a.ip) (ip_sort_key b.ip) = some true)
        (ptr_records_table zones rbz)) ∧
    (∀ a b : Str, ('.' ∈ a ∧ ':' ∉ a) → ¬ ('.' ∈ b ∧ ':' ∉ b) →
      ipKeyCmpPy (ip_sort_key a) (ip_sort_key b) = none ∧
      ipKeyCmpPy (ip_sort_key b) (ip_sort_key a) = none) ∧
    ((ptr_records_table
        [⟨strOf "1.168.192.in-addr.arpa", strOf "Primary", 0, strOf "Success", 0, []⟩,
         ⟨strOf "0.0.10.in-addr.arpa", strOf "Primary", 0, strOf "Success", 0, []⟩]
        [(strOf "1.168.192.in-addr.arpa",
          [⟨strOf "100", strOf "PTR", 300, strOf "a.example.com."⟩,
           ⟨strOf "10", strOf "PTR", 300, strOf "b.example.com."⟩,
           ⟨strOf "1", strOf "PTR", 300, strOf "c.example.com."⟩]),
         (strOf "0.0.10.in-addr.arpa",
          [⟨strOf "1", strOf "PTR", 300, strOf "d.example.com."⟩])]).map
        (fun row => row.ip) =
      [strOf "10.0.0.1", strOf "192.168.1.1", strOf "192.168.1.10",
       strOf "192.168.1.100"]) := by
  refine ⟨?_, ?_, ?_, ?_, ?_, ?_⟩
  · intro s h
    rw [ip_sort_key, if_pos h]
  · intro s h
    rw [ip_sort_key, if_neg h]
  · intro zones rbz hmode
    have hp := pairwise_insertionSort ptrLE
      (fun a b c h1 h2 => ipKeyLE_trans _ _ _ h1 h2)
      (fun a b => ipKeyLE_total _ _) (zones.flatMap (zone_ptr_rows rbz))
    refine List.Pairwise.imp_of_mem ?_ hp
    intro a b ha hb hle
    have hka : ip_sort_key a.ip = IpKey.nums (((pySplitCh '.' a.ip).take 4).map numOrZero) := by
      rw [ip_sort_key, if_pos (hmode a ha)]
    have hkb : ip_sort_key b.ip = IpKey.nums (((pySplitCh '.' b.ip).take 4).map numOrZero) := by
      rw [ip_sort_key, if_pos (hmode b hb)]
    unfold ptrLE at hle
    rw [hka, hkb] at hle
    simp only [ipKeyLE] at hle
    rw [hka, hkb]
    simp only [ipKeyCmpPy]
    rw [hle]
  · intro zones rbz hmode
    have hp := pairwise_insertionSort ptrLE
      (fun a b c h1 h2 => ipKeyLE_trans _ _ _ h1 h2)
      (fun a b => ipKeyLE_total _ _) (zones.flatMap (zone_ptr_rows rbz))
    refine List.Pairwise.imp_of_mem ?_ hp
    intro a b ha hb hle
    have hka : ip_sort_key a.ip = IpKey.raw a.ip := by
      rw [ip_sort_key, if_neg (hmode a ha)]
    have hkb : ip_sort_key b.ip = IpKey.raw b.ip := by
      rw [ip_sort_key, if_neg (hmode b hb)]
    unfold ptrLE at hle
    rw [hka, hkb] at hle
    simp only [ipKeyLE] at hle
    rw [hka, hkb]
    simp only [ipKeyCmpPy]
    rw [hle]
  · intro a b ha hb
    have hka : ip_sort_key a = IpKey.nums (((pySplitCh '.' a).take 4).map numOrZero) := by
      rw [ip_sort_key, if_pos ha]
    have hkb : ip_sort_key b = IpKey.raw b := by
      rw [ip_sort_key, if_neg hb]
    rw [hka, hkb]
    exact ⟨rfl, rfl⟩
  · decide

/-- Witness for C6: the key characterization on concrete strings of
each mode, the sortedness hypotheses discharged on an all-dotted table
and on an all-colon table built from two IPv6 reverse zones, and the
undefined cross-mode comparison on a concrete pair. -/
theorem ptr_sort_key_contract_witness :
    ip_sort_key (strOf "192.168.1.10") =
      IpKey.nums (((pySplitCh '.' (strOf "192.168.1.10")).take 4).map numOrZero) ∧
    ip_sort_key (strOf "fe80::1") = IpKey.raw (strOf "fe80::1") ∧
    List.Pairwise (fun a b => ipKeyCmpPy (ip_sort_key a.ip) (ip_sort_key b.ip) = some true)
      (ptr_records_table
        [⟨strOf "1.168.192.in-addr.arpa", strOf "Primary", 0, strOf "Success", 0, []⟩]
        [(strOf "1.168.192.in-addr.arpa",
          [⟨strOf "100", strOf "PTR", 300, strOf "a.example.com."⟩,
           ⟨strOf "10", strOf "PTR", 300, strOf "b.example.com."⟩])]) ∧
    List.Pairwise (fun a b => ipKeyCmpPy (ip_sort_key a.ip) (ip_sort_key b.ip) = some true)
      (ptr_records_table
        [⟨strOf "8.b.d.0.1.0.0.2.ip6.arpa", strOf "Primary", 0, strOf "Success", 0, []⟩,
         ⟨strOf "0.0.0.0.1.0.0.2.ip6.arpa", strOf "Primary", 0, strOf "Success", 0, []⟩]
        [(strOf "8.b.d.0.1.0.0.2.ip6.arpa",
          [⟨strOf "@", strOf "PTR", 300, strOf "a.example.com."⟩]),
         (strOf "0.0.0.0.1.0.0.2.ip6.arpa",
          [⟨strOf "@", strOf "PTR", 300, strOf "b.example.com."⟩])]) ∧
    (ipKeyCmpPy (ip_sort_key (strOf "192.168.1.10")) (ip_sort_key (strOf "2001:0db8")) = none ∧
     ipKeyCmpPy (ip_sort_key (strOf "2001:0db8")) (ip_sort_key (strOf "192.168.1.10")) = none) := by
  refine ⟨?_, ?_, ?_, ?_, ?_⟩
  · exact ptr_sort_key_contract.1 (strOf "192.168.1.10") (by decide)
  · exact ptr_sort_key_contract.2.1 (strOf "fe80::1") (by decide)
  · exact ptr_sort_key_contract.2.2.1
      [⟨strOf "1.168.192.in-addr.arpa", strOf "Primary", 0, strOf "Success", 0, []⟩]
      [(strOf "1.168.192.in-addr.arpa",
        [⟨strOf "100", strOf "PTR", 300, strOf "a.example.com."⟩,
         ⟨strOf "10", strOf "PTR", 300, strOf "b.example.com."⟩])]
      (by decide)
  · exact ptr_sort_key_contract.2.2.2.1
      [⟨strOf "8.b.d.0.1.0.0.2.ip6.arpa", strOf "Primary", 0, strOf "Success", 0, []⟩,
       ⟨strOf "0.0.0.0.1.0.0.2.ip6.arpa", strOf "Primary", 0, strOf "Success", 0, []⟩]
      [(strOf "8.b.d.0.1.0.0.2.ip6.arpa",
        [⟨strOf "@", strOf "PTR", 300, strOf "a.example.com."⟩]),
       (strOf "0.0.0.0.1.0.0.2.ip6.arpa",
        [⟨strOf "@", strOf "PTR", 300, strOf "b.example.com."⟩])]
      (by decide)
  · exact ptr_sort_key_contract.2.2.2.2.1 (strOf "192.168.1.10") (strOf "2001:0db8")
      (by decide) (by decide)

/-- Counterexample for C6 as stated: a table drawing PTR records from
one IPv4 reverse zone and one IPv6 reverse zone produces the rows
`192.168.1.10` (numeric-tuple key) and `2001:0db8` (raw-string key);
Python's comparison between the two keys is undefined in either order
(`list.sort` raises `TypeError`, comparing an integer with a string),
so no arrangement of these rows is sorted ascending under the
dual-mode key and the program produces no table at all. -/
theorem ptr_sort_mixed_modes_counterexample :
    (([⟨strOf "1.168.192.in-addr.arpa", strOf "Primary", 0, strOf "Success", 0, []⟩,
       ⟨strOf "8.b.d.0.1.0.0.2.ip6.arpa", strOf "Primary", 0, strOf "Success", 0, []⟩].flatMap
        (zone_ptr_rows
          [(strOf "1.168.192.in-addr.arpa",
            [⟨strOf "10", strOf "PTR", 300, strOf "a.example.com."⟩]),
           (strOf "8.b.d.0.1.0.0.2.ip6.arpa",
            [⟨strOf "@", strOf "PTR", 300, strOf "b.example.com."⟩])])).map
      (fun row => row.ip) = [strOf "192.168.1.10", strOf "2001:0db8"]) ∧
    ipKeyCmpPy (ip_sort_key (strOf "192.168.1.10")) (ip_sort_key (strOf "2001:0db8")) = none ∧
    ipKeyCmpPy (ip_sort_key (strOf "2001:0db8")) (ip_sort_key (strOf "192.168.1.10")) = none ∧
    ¬ List.Pairwise (fun a b => ipKeyCmpPy (ip_sort_key a.ip) (ip_sort_key b.ip) = some true)
      (ptr_records_table
        [⟨strOf "1.168.192.in-addr.arpa", strOf "Primary", 0, strOf "Success", 0, []⟩,
         ⟨strOf "8.b.d.0.1.0.0.2.ip6.arpa", strOf "Primary", 0, strOf "Success", 0, []⟩]
        [(strOf "1.168.192.in-addr.arpa",
          [⟨strOf "10", strOf "PTR", 300, strOf "a.example.com."⟩]),
         (strOf "8.b.d.0.1.0.0.2.ip6.arpa",
          [⟨strOf "@", strOf "PTR", 300, strOf "b.example.com."⟩])]) := by
  exact ⟨by decide, by decide, by decide, by decide⟩

/-- C10: a zone whose name has no binding in `records_by_zone` is
treated as having an empty record list by every consolidation pass:
the `.get(name, [])` lookup yields `[]`, the zone contributes zero rows
to each of the four tables, and dropping the zone from the front of the
zone list leaves all four tables unchanged. -/
theorem missing_zone_contributes_nothing (rbz : RBZ) (z : ZoneInfo)
    (h : lookupRBZ rbz z.name = none) :
    getRecords rbz z.name = [] ∧
    zone_ptr_rows rbz z = [] ∧ zone_cname_rows rbz z = [] ∧
    zone_srv_rows rbz z = [] ∧ zone_aaaa_rows rbz z = [] ∧
    (∀ zones : List ZoneInfo, consolidate (z :: zones) rbz = consolidate zones rbz) := by
  have hg : getRecords rbz z.name = [] := by simp [getRecords, h]
  have h1 : zone_ptr_rows rbz z = [] := by simp [zone_ptr_rows, hg]
  have h2 : zone_cname_rows rbz z = [] := by simp [zone_cname_rows, hg]
  have h3 : zone_srv_rows rbz z = [] := by simp [zone_srv_rows, hg]
  have h4 : zone_aaaa_rows rbz z = [] := by simp [zone_aaaa_rows, hg]
  refine ⟨hg, h1, h2, h3, h4, ?_⟩
  intro zones
  simp [consolidate, ptr_records_table, cname_records_table, srv_records_table,
    aaaa_records_table, List.flatMap_cons, h1, h2, h3, h4]

/-- Witness for C10: the empty mapping binds no zone. -/
theorem missing_zone_contributes_nothing_witness :
    getRecords [] (strOf "example.com") = [] ∧
    zone_ptr_rows [] ⟨strOf "example.com", strOf "Primary", 0, strOf "Pending", 0, []⟩ = [] ∧
    zone_cname_rows [] ⟨strOf "example.com", strOf "Primary", 0, strOf "Pending", 0, []⟩ = [] ∧
    zone_srv_rows [] ⟨strOf "example.com", strOf "Primary", 0, strOf "Pending", 0, []⟩ = [] ∧
    zone_aaaa_rows [] ⟨strOf "example.com", strOf "Primary", 0, strOf "Pending", 0, []⟩ = [] ∧
    (∀ zones : List ZoneInfo,
      consolidate (⟨strOf "example.com", strOf "Primary", 0, strOf "Pending", 0, []⟩ :: zones) [] =
        consolidate zones []) :=
  missing_zone_contributes_nothing []
    ⟨strOf "example.com", strOf "Primary", 0, strOf "Pending", 0, []⟩ rfl

/-- C8: consolidation is stateless and idempotent.  The exporter state
is returned unchanged by `create_workbook`; running the pass again on
the post-call state produces identical tables; the tables do not depend
on the exporter state at all; and when every zone contributes no
records each of the four tables is empty rather than an error. -/
theorem consolidation_idempotent (ex : ExcelExporter) (zones : List ZoneInfo) (rbz : RBZ) :
    (create_workbook ((create_workbook ex zones rbz).1) zones rbz).2 =
      (create_workbook ex zones rbz).2 ∧
    (create_workbook ex zones rbz).1 = ex ∧
    (∀ ex2 : ExcelExporter, (create_workbook ex2 zones rbz).2 = (create_workbook ex zones rbz).2) ∧
    ((∀ z ∈ zones, getRecords rbz z.name = []) → consolidate zones rbz = ⟨[], [], [], []⟩) := by
  refine ⟨rfl, rfl, fun ex2 => rfl, ?_⟩
  intro h
  have e1 : zones.flatMap (zone_ptr_rows rbz) = [] :=
    flatMap_eq_nil_of_forall zones _ (fun z hz => by simp [zone_ptr_rows, h z hz])
  have e2 : zones.flatMap (zone_cname_rows rbz) = [] :=
    flatMap_eq_nil_of_forall zones _ (fun z hz => by simp [zone_cname_rows, h z hz])
  have e3 : zones.flatMap (zone_srv_rows rbz) = [] :=
    flatMap_eq_nil_of_forall zones _ (fun z hz => by simp [zone_srv_rows, h z hz])
  have e4 : zones.flatMap (zone_aaaa_rows rbz) = [] :=
    flatMap_eq_nil_of_forall zones _ (fun z hz => by simp [zone_aaaa_rows, h z hz])
  simp [consolidate, ptr_records_table, cname_records_table, srv_records_table,
    aaaa_records_table, e1, e2, e3, e4, insertionSort]

/-- Witness for C8: a zone list with an empty mapping consolidates to
four empty tables, twice over, from any exporter state. -/
theorem consolidation_idempotent_witness :
    (create_workbook
        ((create_workbook ⟨strOf "./Reports", strOf "4472C4", strOf "FFFFFF", 50⟩
          [⟨strOf "example.com", strOf "Primary", 0, strOf "Pending", 0, []⟩] []).1)
        [⟨strOf "example.com", strOf "Primary", 0, strOf "Pending", 0, []⟩] []).2 =
      (create_workbook ⟨strOf "./Reports", strOf "4472C4", strOf "FFFFFF", 50⟩
        [⟨strOf "example.com", strOf "Primary", 0, strOf "Pending", 0, []⟩] []).2 ∧
    consolidate [⟨strOf "example.com", strOf "Primary", 0, strOf "Pending", 0, []⟩] [] =
      ⟨[], [], [], []⟩ := by
  obtain ⟨h1, -, -, h4⟩ := consolidation_idempotent
    ⟨strOf "./Reports", strOf "4472C4", strOf "FFFFFF", 50⟩
    [⟨strOf "example.com", strOf "Primary", 0, strOf "Pending", 0, []⟩] []
  exact ⟨h1, h4 (fun z hz => rfl)⟩
